import Mathlib

/-!
Verification development for the command-interpretation and multi-source
aggregation pipeline of `leads.py` (AI-Powered Public Intelligence Agent).

The Python source is shallowly embedded:

* The regular expressions used by the source are transcribed into a small
  pattern AST (`RE`) together with a CPS backtracking matcher that follows
  Python `re` semantics for the constructs the source uses: ordered
  alternation, greedy `?`/`+`/`{2,}`, lazy `+?`, exact `{n}` repetition of a
  character class, the word boundary `\b` and the end anchor `$` (which in
  Python also matches just before a final newline).  `re.findall` is the
  left-to-right non-overlapping scan; `re.search` with one capturing group is
  modelled by `reSearchGroup` over a pre/group/post split of the pattern.
* Python `list(set(xs))` iterates a hash table; its order is unspecified (it
  varies with the per-process string-hash seed).  It is therefore modelled by
  an explicit parameter `pySet : List String -> List String` constrained by
  `PySetOK`: the result is duplicate-free and has exactly the members of the
  input.  `insertionDedup` (first-occurrence order) and `revDedup` are two
  concrete admissible instances.
* The network call in `WebScraperPlugin.fetch_data` (`urllib.request.urlopen`
  plus `.read().decode()`) is modelled by an oracle
  `urlopen : String -> Except String String`; an `Except.error e` models the
  Python exception `e` caught inside the plugin by its `try/except`.
* The `try/except` block of `IntelligenceAgent.gather_intelligence` is
  modelled by `tryWrap` applied to the body `IntelligenceAgent.gatherBody`;
  an `Except.error` value models an uncaught Python exception escaping the
  body.  All stages of the mock pipeline are total, so the body always
  returns `Except.ok`, exactly as in the source where the mock plugins and
  summarizer cannot raise.
* `json.dumps(obj, indent=2)` is modelled by `pyDumps` over a small JSON
  value type `JVal`, reproducing the Python rendering (two-space indent,
  `", "`/`": "` separators, `\x7b\x7d` for the empty object, `ensure_ascii`
  string escaping).  The float constant `0.8` renders as the literal `0.8`.

Character classes are the ASCII classes of the source patterns; all strings
that actually flow through the program are ASCII apart from the emoji labels,
which belong to no class (as in Python, where they are neither `\w` nor `\s`).
-/

/-! ## Character classes of the source patterns -/

/-- Python `\s` (ASCII range, the only characters occurring in the data). -/
def isPySpace (c : Char) : Bool :=
  c = ' ' || c = '\t' || c = '\n' || c = '\x0d' || c = '\x0b' || c = '\x0c'

/-- Python `\w` on ASCII: letters, digits and underscore (used by `\b`). -/
def isWordChar (c : Char) : Bool :=
  c.isAlpha || c.isDigit || c = '_'

/-- The class `[A-Za-z0-9._%+-]` (email local part). -/
def isLocalChar (c : Char) : Bool :=
  c.isAlpha || c.isDigit || c = '.' || c = '_' || c = '%' || c = '+' || c = '-'

/-- The class `[A-Za-z0-9.-]` (email domain). -/
def isDomainChar (c : Char) : Bool :=
  c.isAlpha || c.isDigit || c = '.' || c = '-'

/-- The class `[A-Z|a-z]` (email top-level part; note the literal bar). -/
def isTldChar (c : Char) : Bool :=
  c.isAlpha || c = '|'

/-- The class `[-.\s]` (phone separators). -/
def isSepChar (c : Char) : Bool :=
  c = '-' || c = '.' || isPySpace c

/-- The class `[A-Z]` under `re.IGNORECASE`. -/
def isAlphaCI (c : Char) : Bool := c.isAlpha

/-- The class `[a-zA-Z\s&]` (company-name body, same under IGNORECASE). -/
def isCompanyChar (c : Char) : Bool :=
  c.isAlpha || isPySpace c || c = '&'

/-- The class `[A-Z]` (case-sensitive, person-name pattern). -/
def isUpperAZ (c : Char) : Bool := 'A' ≤ c && c ≤ 'Z'

/-- The class `[a-z]` (case-sensitive, person-name pattern). -/
def isLowerAZ (c : Char) : Bool := 'a' ≤ c && c ≤ 'z'

/-- The class `[^\s]` (URL tail). -/
def isNonSpace (c : Char) : Bool := !isPySpace c

/-- The class `[<]`-free tag interior `[^>]` (web-scraper tag stripper). -/
def isNonGt (c : Char) : Bool := c ≠ '>'

/-! ## Pattern AST and Python-style backtracking matcher -/

/-- The regex constructs used by `leads.py`.  Repetitions only ever apply to
a single character class in the source patterns, so they are restricted to
predicates here. -/
inductive RE where
  /-- matches nothing, consumes nothing -/
  | eps : RE
  /-- one character of a class -/
  | pred (p : Char → Bool) : RE
  /-- a literal character (case-sensitive) -/
  | lit (c : Char) : RE
  /-- a literal character under IGNORECASE (stored lowercase) -/
  | liti (c : Char) : RE
  /-- concatenation -/
  | seq (a b : RE) : RE
  /-- ordered alternation: the left branch is tried first -/
  | alt (a b : RE) : RE
  /-- greedy `?` -/
  | opt (a : RE) : RE
  /-- greedy `+` over a class -/
  | plus (p : Char → Bool) : RE
  /-- lazy `+?` over a class -/
  | plusLazy (p : Char → Bool) : RE
  /-- exact `{n}` over a class -/
  | repe (n : Nat) (p : Char → Bool) : RE
  /-- greedy `{2,}` over a class -/
  | rep2plus (p : Char → Bool) : RE
  /-- the word boundary `\b` -/
  | wordB : RE
  /-- the anchor `$` (end of input, or just before a final newline) -/
  | eos : RE

/-- Greedy Kleene-star backtracking over a class: consume as many further
characters as possible, retrying the continuation from the longest prefix
downwards.  The continuation receives the remaining input and the character
just before it (for `\b`). -/
def starGreedy (p : Char → Bool) (k : List Char → Option Char → Option ρ) :
    List Char → Option Char → Option ρ
  | [], prev => k [] prev
  | c :: s, prev =>
    if p c then
      match starGreedy p k s (some c) with
      | some r => some r
      | none => k (c :: s) prev
    else k (c :: s) prev

/-- Lazy repetition tail for `+?`: try the continuation first, then consume
one more character of the class. -/
def starLazy (p : Char → Bool) (k : List Char → Option Char → Option ρ) :
    List Char → Option Char → Option ρ
  | [], prev => k [] prev
  | c :: s, prev =>
    match k (c :: s) prev with
    | some r => some r
    | none => if p c then starLazy p k s (some c) else none

/-- Consume exactly `n` characters of a class. -/
def repExact (p : Char → Bool) : Nat → List Char → Option Char →
    (List Char → Option Char → Option ρ) → Option ρ
  | 0, s, prev, k => k s prev
  | _ + 1, [], _, _ => none
  | n + 1, c :: s, _, k => if p c then repExact p n s (some c) k else none

/-- Whether the position carries a `\b` boundary: exactly one neighbour is a
word character. -/
def atWordBoundary (prev : Option Char) (s : List Char) : Bool :=
  let l := match prev with | some c => isWordChar c | none => false
  let r := match s with | c :: _ => isWordChar c | [] => false
  l != r

/-- Whether `$` matches here (end of input or a sole trailing newline). -/
def atEos (s : List Char) : Bool :=
  match s with
  | [] => true
  | [c] => c = '\n'
  | _ => false

/-- The backtracking matcher.  `matchRE r s prev k` tries to match `r` at the
start of `s` (with `prev` the character just before `s`), calling the
continuation `k` on the remaining input for every candidate parse, in the
order the Python engine would produce them; the first success wins. -/
def matchRE : RE → List Char → Option Char → (List Char → Option Char → Option ρ) → Option ρ
  | .eps, s, prev, k => k s prev
  | .pred p, s, _, k =>
    match s with
    | [] => none
    | c :: s => if p c then k s (some c) else none
  | .lit a, s, _, k =>
    match s with
    | [] => none
    | c :: s => if c = a then k s (some c) else none
  | .liti a, s, _, k =>
    match s with
    | [] => none
    | c :: s => if c.toLower = a then k s (some c) else none
  | .seq a b, s, prev, k => matchRE a s prev (fun s1 p1 => matchRE b s1 p1 k)
  | .alt a b, s, prev, k =>
    match matchRE a s prev k with
    | some r => some r
    | none => matchRE b s prev k
  | .opt a, s, prev, k =>
    match matchRE a s prev k with
    | some r => some r
    | none => k s prev
  | .plus p, s, _, k =>
    match s with
    | [] => none
    | c :: s => if p c then starGreedy p k s (some c) else none
  | .plusLazy p, s, _, k =>
    match s with
    | [] => none
    | c :: s => if p c then starLazy p k s (some c) else none
  | .repe n p, s, prev, k => repExact p n s prev k
  | .rep2plus p, s, prev, k =>
    repExact p 2 s prev (fun s1 p1 => starGreedy p k s1 p1)
  | .wordB, s, prev, k => if atWordBoundary prev s then k s prev else none
  | .eos, s, prev, k => if atEos s then k s prev else none

/-- Concatenation of a pattern list. -/
def seqs (rs : List RE) : RE := rs.foldr RE.seq RE.eps

/-- A case-sensitive literal word. -/
def lits (w : String) : RE := seqs (w.data.map RE.lit)

/-- A literal word under IGNORECASE (given in lowercase). -/
def litsCI (w : String) : RE := seqs (w.data.map RE.liti)

/-- Ordered alternation of IGNORECASE literal words, first alternative
tried first, as in `(?:company|business|...)`. -/
def altLitsCI (ws : List String) : RE :=
  match ws with
  | [] => RE.eps
  | [w] => litsCI w
  | w :: ws => RE.alt (litsCI w) (altLitsCI ws)

/-- Attempt a match of `r` at the current position; on success return the
remaining input after the whole match. -/
def tryMatch (r : RE) (s : List Char) (prev : Option Char) : Option (List Char) :=
  matchRE r s prev (fun s1 _ => some s1)

/-- The `re.findall` for a groupless pattern: left-to-right scan collecting
non-overlapping matches; on an empty match the scan advances one character
(the source patterns never match empty).  The scan is driven by a fuel
counter so that the definition is structurally recursive and reduces inside
the kernel; every step consumes at least one character, so fuel equal to
the input length is always sufficient. -/
def findAllAux (r : RE) : Nat → List Char → Option Char → List String
  | 0, _, _ => []
  | _ + 1, [], _ => []
  | fuel + 1, c :: s, prev =>
    match tryMatch r (c :: s) prev with
    | none => findAllAux r fuel s (some c)
    | some s1 =>
      match (c :: s).length - s1.length with
      | 0 => String.mk [] :: findAllAux r fuel s (some c)
      | n + 1 =>
        String.mk ((c :: s).take (n + 1)) ::
          findAllAux r fuel ((c :: s).drop (n + 1)) (((c :: s).take (n + 1)).getLast?)

/-- The `re.findall(pattern, s)` for the groupless source patterns. -/
def reFindAll (r : RE) (s : String) : List String :=
  findAllAux r s.data.length s.data none

/-- The `re.search` for a pattern of shape `pre (group) post`, returning the text
captured by the group of the leftmost match (Python `match.group(1)`). -/
def searchGroupAux (pre body post : RE) : List Char → Option Char → Option String
  | [], prev =>
    matchRE pre [] prev (fun s1 p1 =>
      matchRE body s1 p1 (fun s2 p2 =>
        matchRE post s2 p2 (fun _ _ =>
          some (String.mk (s1.take (s1.length - s2.length))))))
  | c :: s, prev =>
    match
      matchRE pre (c :: s) prev (fun s1 p1 =>
        matchRE body s1 p1 (fun s2 p2 =>
          matchRE post s2 p2 (fun _ _ =>
            some (String.mk (s1.take (s1.length - s2.length))))))
    with
    | some r => some r
    | none => searchGroupAux pre body post s (some c)

/-- The `re.search(pre (group) post, s)` returning `group(1)`. -/
def reSearchGroup (pre body post : RE) (s : String) : Option String :=
  searchGroupAux pre body post s.data none

/-! ## The concrete patterns of `leads.py` -/

/-- The `\b[A-Za-z0-9._%+-]+@[A-Za-z0-9.-]+\.[A-Z|a-z]{2,}\b` (email). -/
def emailRE : RE :=
  seqs [RE.wordB, RE.plus isLocalChar, RE.lit '@', RE.plus isDomainChar,
    RE.lit '.', RE.rep2plus isTldChar, RE.wordB]

/-- The `(?:\+1[-.\s]?)?\(?[0-9]{3}\)?[-.\s]?[0-9]{3}[-.\s]?[0-9]{4}` (phone). -/
def phoneRE : RE :=
  seqs [RE.opt (seqs [RE.lit '+', RE.lit '1', RE.opt (RE.pred isSepChar)]),
    RE.opt (RE.lit '('), RE.repe 3 Char.isDigit, RE.opt (RE.lit ')'),
    RE.opt (RE.pred isSepChar), RE.repe 3 Char.isDigit,
    RE.opt (RE.pred isSepChar), RE.repe 4 Char.isDigit]

/-- The `https?://[^\s]+` (URL). -/
def urlRE : RE :=
  seqs [lits "http", RE.opt (RE.lit 's'), lits "://", RE.plus isNonSpace]

/-- The `<[^>]+>` (web-scraper tag stripper). -/
def tagRE : RE :=
  seqs [RE.lit '<', RE.plus isNonGt, RE.lit '>']

/-- The `about\s+` — the part of the person-name pattern before the group. -/
def namePre : RE := seqs [lits "about", RE.plus isPySpace]

/-- The `[A-Z][a-z]+\s+[A-Z][a-z]+` — the captured group of the person-name
pattern `about\s+([A-Z][a-z]+\s+[A-Z][a-z]+)`. -/
def nameBody : RE :=
  seqs [RE.pred isUpperAZ, RE.plus isLowerAZ, RE.plus isPySpace,
    RE.pred isUpperAZ, RE.plus isLowerAZ]

/-- The group body `[A-Z][a-zA-Z\s&]+?` shared by all four company
patterns (under IGNORECASE). -/
def companyBody : RE := RE.seq (RE.pred isAlphaCI) (RE.plusLazy isCompanyChar)

/-- The `(?:\s|$)` — trailing context of company patterns 1, 3 and 4. -/
def spaceOrEnd : RE := RE.alt (RE.pred isPySpace) RE.eos

/-- Pattern 1 prefix:
`(?:company|business|firm|corp|corporation|inc|ltd)\s+`. -/
def companyPre1 : RE :=
  RE.seq (altLitsCI ["company", "business", "firm", "corp", "corporation", "inc", "ltd"])
    (RE.plus isPySpace)

/-- Pattern 2 prefix: `(?:from|at|of)\s+`. -/
def companyPre2 : RE :=
  RE.seq (altLitsCI ["from", "at", "of"]) (RE.plus isPySpace)

/-- Pattern 2 suffix: `(?:\s+(?:company|corp|inc|ltd|employees|staff|team))`. -/
def companyPost2 : RE :=
  RE.seq (RE.plus isPySpace)
    (altLitsCI ["company", "corp", "inc", "ltd", "employees", "staff", "team"])

/-- Pattern 3 prefix: `employees?\s+(?:from|at|of)\s+`. -/
def companyPre3 : RE :=
  seqs [litsCI "employee", RE.opt (RE.liti 's'), RE.plus isPySpace,
    altLitsCI ["from", "at", "of"], RE.plus isPySpace]

/-- Pattern 4 prefix: `leads?\s+(?:from|at|of)\s+`. -/
def companyPre4 : RE :=
  seqs [litsCI "lead", RE.opt (RE.liti 's'), RE.plus isPySpace,
    altLitsCI ["from", "at", "of"], RE.plus isPySpace]

/-! ## Python string helpers -/

/-- The `str.lower()` (ASCII, the only case-carrying characters in the data). -/
def pyLower (s : String) : String := String.mk (s.data.map Char.toLower)

/-- The `str.upper()` (ASCII). -/
def pyUpper (s : String) : String := String.mk (s.data.map Char.toUpper)

/-- The `s[:n]` on a Python string (a prefix of code points). -/
def pyTake (s : String) (n : Nat) : String := String.mk (s.data.take n)

/-- The `str.strip()` (whitespace on both ends). -/
def pyStrip (s : String) : String :=
  String.mk (((s.data.dropWhile isPySpace).reverse.dropWhile isPySpace).reverse)

/-- The `s.replace(old, new)` for a one-character `old`. -/
def pyReplaceChar (s : String) (old : Char) (new : String) : String :=
  String.mk (s.data.foldr (fun c acc => if c = old then new.data ++ acc else c :: acc) [])

/-- The `new * n` for a one-character string (`"=" * 50`). -/
def pyRepeat (c : Char) (n : Nat) : String := String.mk (List.replicate n c)

/-- Whether the needle occurs as a prefix of the list. -/
def listStarts : List Char → List Char → Bool
  | _, [] => true
  | [], _ :: _ => false
  | h :: hs, n :: ns => h = n && listStarts hs ns

/-- Substring search for the Python `in` operator on strings. -/
def listHas : List Char → List Char → Bool
  | [], ns => listStarts [] ns
  | h :: t, ns => listStarts (h :: t) ns || listHas t ns

/-- Python `needle in hay` for strings. -/
def strContains (hay needle : String) : Bool := listHas hay.data needle.data

/-- Accumulator pass of `str.split()`: collect maximal non-whitespace runs
(`acc` holds the current word reversed). -/
def splitWsAux : List Char → List Char → List String
  | [], acc => if acc.isEmpty then [] else [String.mk acc.reverse]
  | c :: s, acc =>
    if isPySpace c then
      if acc.isEmpty then splitWsAux s []
      else String.mk acc.reverse :: splitWsAux s []
    else splitWsAux s (c :: acc)

/-- The `str.split()` with no argument: split on whitespace runs, no empties. -/
def pySplitWs (s : String) : List String := splitWsAux s.data []

/-- The `re.sub(pattern, " ", s)`: replace every match (same scan order as
`findall`) by a single space; fuel-driven like `findAllAux`. -/
def reSubSpaceAux (r : RE) : Nat → List Char → Option Char → List Char
  | 0, rest, _ => rest
  | _ + 1, [], _ => []
  | fuel + 1, c :: s, prev =>
    match tryMatch r (c :: s) prev with
    | none => c :: reSubSpaceAux r fuel s (some c)
    | some s1 =>
      match (c :: s).length - s1.length with
      | 0 => ' ' :: c :: reSubSpaceAux r fuel s (some c)
      | n + 1 =>
        ' ' :: reSubSpaceAux r fuel ((c :: s).drop (n + 1)) (((c :: s).take (n + 1)).getLast?)

/-- The `re.sub(pattern, " ", s)` on a whole string. -/
def reSubSpace (r : RE) (s : String) : String :=
  String.mk (reSubSpaceAux r s.data.length s.data none)

/-! ## The `list(set(...))` model -/

/-- Admissibility of a model of Python `list(set(xs))`: the result is
duplicate-free and has exactly the members of the input.  CPython guarantees
nothing about the order (it depends on the per-process string-hash seed), so
every property of the program that is claimed for all runs must hold for
every admissible function. -/
def PySetOK (f : List String → List String) : Prop :=
  ∀ xs : List String, (f xs).Nodup ∧ ∀ a : String, a ∈ f xs ↔ a ∈ xs

/-- Deduplication keeping the first occurrence: one admissible
`list(set(...))` order. -/
def insertionDedup : List String → List String
  | [] => []
  | x :: xs => x :: (insertionDedup xs).filter (fun y => y ≠ x)

/-- First-occurrence deduplication, reversed: another admissible
`list(set(...))` order. -/
def revDedup (xs : List String) : List String := (insertionDedup xs).reverse

/-! ## JSON rendering (`json.dumps(..., indent=2)`) -/

/-- A lowercase hexadecimal digit. -/
def hexDigit (n : Nat) : Char :=
  if n < 10 then Char.ofNat (48 + n) else Char.ofNat (87 + n)

/-- Four lowercase hexadecimal digits, as in Python `\uXXXX` escapes. -/
def hex4 (n : Nat) : String :=
  String.mk [hexDigit (n / 4096 % 16), hexDigit (n / 256 % 16),
    hexDigit (n / 16 % 16), hexDigit (n % 16)]

/-- The `json.dumps` escaping of one character (default `ensure_ascii=True`). -/
def jsonEscapeChar (c : Char) : String :=
  if c = '"' then "\\\""
  else if c = '\\' then "\\\\"
  else if c = '\n' then "\\n"
  else if c = '\x0d' then "\\r"
  else if c = '\t' then "\\t"
  else if c = '\x08' then "\\b"
  else if c = '\x0c' then "\\f"
  else if c.toNat < 0x20 then "\\u" ++ hex4 c.toNat
  else if c.toNat < 0x7f then String.mk [c]
  else if c.toNat ≤ 0xffff then "\\u" ++ hex4 c.toNat
  else
    "\\u" ++ hex4 (0xd800 + (c.toNat - 0x10000) / 0x400) ++
      "\\u" ++ hex4 (0xdc00 + (c.toNat - 0x10000) % 0x400)

/-- The `json.dumps` escaping of a string body. -/
def jsonEscape (s : String) : String :=
  String.join (s.data.map jsonEscapeChar)

/-- JSON values as built by `MockAISummarizer.summarize` (numbers carry their
Python rendering; the only one used is the literal `0.8`). -/
inductive JVal where
  | jstr (s : String) : JVal
  | jnum (lit : String) : JVal
  | jarr (xs : List JVal) : JVal
  | jobj (fields : List (String × JVal)) : JVal

/-- Indentation of `n` spaces. -/
def spaces (n : Nat) : String := String.mk (List.replicate n ' ')

mutual

/-- The `json.dumps(v, indent=2)` rendered at indentation level `lvl`:
dict keys in insertion order, items separated by `",\n"`, key-value
separator `": "`, empty containers rendered inline. -/
def renderJ : JVal → Nat → String
  | .jstr s, _ => "\"" ++ jsonEscape s ++ "\""
  | .jnum l, _ => l
  | .jarr [], _ => "[]"
  | .jarr (x :: xs), lvl =>
    "[\n" ++ String.intercalate ",\n" (renderItems (x :: xs) (lvl + 2)) ++
      "\n" ++ spaces lvl ++ "]"
  | .jobj [], _ => "\x7b\x7d"
  | .jobj (f :: fs), lvl =>
    "\x7b\n" ++ String.intercalate ",\n" (renderFields (f :: fs) (lvl + 2)) ++
      "\n" ++ spaces lvl ++ "\x7d"

/-- Array items, each on its own indented line. -/
def renderItems : List JVal → Nat → List String
  | [], _ => []
  | x :: xs, lvl => (spaces lvl ++ renderJ x lvl) :: renderItems xs lvl

/-- Object fields, each on its own indented line. -/
def renderFields : List (String × JVal) → Nat → List String
  | [], _ => []
  | (k, v) :: fs, lvl =>
    (spaces lvl ++ "\"" ++ jsonEscape k ++ "\": " ++ renderJ v lvl) :: renderFields fs lvl

end

/-- The `json.dumps(v, indent=2)`. -/
def pyDumps (v : JVal) : String := renderJ v 0

/-! ## Data-source plugins -/

/-- The `LinkedInPlugin.fetch_data`. -/
def LinkedInPlugin.fetch_data (name : String) : String :=
  "LinkedIn: " ++ name ++
    " - Senior Developer at Tech Corp, 5+ years experience. Location: San Francisco, CA. Email: " ++
    pyReplaceChar (pyLower name) ' ' "." ++ "@techcorp.com"

/-- The `TwitterPlugin.fetch_data`. -/
def TwitterPlugin.fetch_data (name : String) : String :=
  "Twitter: " ++ name ++
    " - Tech influencer, 10K followers. Bio location: SF Bay Area. Contact: DM open for collaborations."

/-- The `GitHubPlugin.fetch_data`. -/
def GitHubPlugin.fetch_data (name : String) : String :=
  "GitHub: " ++ name ++
    " - 50+ repos, Python/JS expert. Location: California, USA. Public email: " ++
    pyReplaceChar (pyLower name) ' ' "" ++ "@gmail.com"

/-- One entry of the `mock_employees` table of `CompanyPlugin.fetch_data`. -/
structure Employee where
  name : String
  title : String
  email : String
  phone : String
  location : String
  address : String
  linkedin : String

/-- The `mock_employees` list (emails built from the lowercased,
space-stripped company name; linkedin slugs from the lowercased name). -/
def mock_employees (company : String) : List Employee :=
  let cn := pyReplaceChar (pyLower company) ' ' ""
  let cl := pyLower company
  [{ name := "John Smith", title := "CEO", email := "j.smith@" ++ cn ++ ".com",
     phone := "+1-555-0101", location := "New York, NY",
     address := "123 Business Ave, NYC 10001",
     linkedin := "linkedin.com/in/john-smith-" ++ cl },
   { name := "Sarah Johnson", title := "CTO", email := "sarah.j@" ++ cn ++ ".com",
     phone := "+1-555-0102", location := "San Francisco, CA",
     address := "456 Tech St, SF 94105",
     linkedin := "linkedin.com/in/sarah-johnson-" ++ cl },
   { name := "Mike Chen", title := "VP Engineering", email := "m.chen@" ++ cn ++ ".com",
     phone := "+1-555-0103", location := "Austin, TX",
     address := "789 Innovation Dr, Austin 78701",
     linkedin := "linkedin.com/in/mike-chen-" ++ cl }]

/-- The `CompanyPlugin.fetch_data`. -/
def CompanyPlugin.fetch_data (company : String) : String :=
  let header := "Company: " ++ company ++ " - Employee Directory\n" ++ pyRepeat '=' 50 ++ "\n"
  (mock_employees company).foldl
    (fun result emp =>
      result ++ "👤 " ++ emp.name ++ " - " ++ emp.title ++ "\n" ++
        "   📧 " ++ emp.email ++ "\n" ++
        "   📱 " ++ emp.phone ++ "\n" ++
        "   📍 " ++ emp.location ++ "\n" ++
        "   🏢 " ++ emp.address ++ "\n" ++
        "   🔗 " ++ emp.linkedin ++ "\n\n")
    header

/-- The `WebScraperPlugin.fetch_data`, with the network call abstracted by
`urlopen` (an `Except.error e` is the caught Python exception whose
`str(e)` is `e`). -/
def WebScraperPlugin.fetch_data (urlopen : String → Except String String)
    (pySet : List String → List String) (url : String) : String :=
  match urlopen url with
  | .error e => "Error fetching URL " ++ url ++ ": " ++ e
  | .ok content =>
    let emails := reFindAll emailRE content
    let phones := reFindAll phoneRE content
    let text := String.intercalate " " (pySplitWs (reSubSpace tagRE content))
    let text_preview := if text.length > 800 then pyTake text 800 ++ "..." else text
    let result := "Web Content from " ++ url ++ ":\n" ++ text_preview ++ "\n\n"
    let result :=
      if emails.isEmpty then result
      else result ++ "📧 Found emails: " ++ String.intercalate ", " (pySet (emails.take 5)) ++ "\n"
    let result :=
      if phones.isEmpty then result
      else result ++ "📱 Found phones: " ++ String.intercalate ", " (pySet (phones.take 3)) ++ "\n"
    result

/-! ## `MockAISummarizer` -/

/-- The fixed narrative of `MockAISummarizer.summarize`. -/
def summaryText : String :=
  "Professional Intelligence Summary: Comprehensive profile with contact details extracted from multiple sources."

/-- The fixed `sources` list of the JSON output. -/
def jsonSources : List String := ["linkedin", "twitter", "github", "web", "company"]

/-- The `contact_info` dict of `summarize`: the key `emails` (resp. `phones`)
is inserted exactly when the corresponding extraction is non-empty, bound to
`list(set(...))` of the extracted occurrences. -/
def MockAISummarizer.contact_info (pySet : List String → List String)
    (data : String) : List (String × List String) :=
  let emails := reFindAll emailRE data
  let phones := reFindAll phoneRE data
  (if emails.isEmpty then [] else [("emails", pySet emails)]) ++
    (if phones.isEmpty then [] else [("phones", pySet phones)])

/-- Key lookup in the `contact_info` dict (Python `"emails" in contact_info`
plus indexing). -/
def ciLookup (ci : List (String × List String)) (k : String) : Option (List String) :=
  match ci with
  | [] => none
  | (k1, v) :: rest => if k1 = k then some v else ciLookup rest k

/-- The `contact_info` member of the JSON output: one key per non-empty
extraction, each bound to the array of its deduplicated values. -/
def jsonContactInfo (pySet : List String → List String) (data : String) : JVal :=
  .jobj ((MockAISummarizer.contact_info pySet data).map
    (fun kv => (kv.1, .jarr (kv.2.map .jstr))))

/-- The JSON object passed to `json.dumps` in the `json` branch of
`summarize`. -/
def summarizeJson (pySet : List String → List String) (data : String) : JVal :=
  .jobj [("summary", .jstr summaryText),
    ("contact_info", jsonContactInfo pySet data),
    ("confidence", .jnum "0.8"),
    ("sources", .jarr (jsonSources.map .jstr))]

/-- The `MockAISummarizer.summarize(data, format_type)`. -/
def MockAISummarizer.summarize (pySet : List String → List String)
    (data : String) (format_type : String) : String :=
  let ci := MockAISummarizer.contact_info pySet data
  if format_type = "json" then pyDumps (summarizeJson pySet data)
  else if format_type = "markdown" then
    let md := "# Intelligence Summary\n\n" ++ summaryText ++ "\n\n"
    let md :=
      if ci.isEmpty then md
      else
        let md := md ++ "## 📞 Contact Information\n"
        let md :=
          match ciLookup ci "emails" with
          | some es => md ++ "**Emails**: " ++ String.intercalate ", " es ++ "\n\n"
          | none => md
        match ciLookup ci "phones" with
        | some ps => md ++ "**Phones**: " ++ String.intercalate ", " ps ++ "\n\n"
        | none => md
    md ++ "## Data Sources\n- LinkedIn\n- Twitter\n- GitHub\n- Web Scraping\n- Company Directory"
  else
    let result := summaryText
    if ci.isEmpty then result
    else
      let result := result ++ "\n\n📞 CONTACT INFO:"
      let result :=
        match ciLookup ci "emails" with
        | some es => result ++ "\n📧 Emails: " ++ String.intercalate ", " es
        | none => result
      match ciLookup ci "phones" with
      | some ps => result ++ "\n📱 Phones: " ++ String.intercalate ", " ps
      | none => result

/-! ## `MCPParser` -/

/-- The parse result dict of `MCPParser.parse_command` (`type`, payload and
`sources` keys). -/
inductive Parsed where
  | url (urls : List String) (sources : List String) : Parsed
  | company (company : String) (sources : List String) : Parsed
  | person (name : String) (sources : List String) : Parsed
deriving DecidableEq

/-- The `MCPParser._extract_urls`. -/
def MCPParser._extract_urls (command : String) : List String :=
  reFindAll urlRE command

/-- The `MCPParser._extract_company`: the four IGNORECASE pattern templates tried
in order, first `re.search` hit wins, its group 1 stripped. -/
def MCPParser._extract_company (command : String) : Option String :=
  match reSearchGroup companyPre1 companyBody spaceOrEnd command with
  | some m => some (pyStrip m)
  | none =>
    match reSearchGroup companyPre2 companyBody companyPost2 command with
    | some m => some (pyStrip m)
    | none =>
      match reSearchGroup companyPre3 companyBody spaceOrEnd command with
      | some m => some (pyStrip m)
      | none =>
        match reSearchGroup companyPre4 companyBody spaceOrEnd command with
        | some m => some (pyStrip m)
        | none => none

/-- The fixed keyword list of `parse_command`. -/
def company_keywords : List String :=
  ["employees", "staff", "team", "leads", "people from", "workers at"]

/-- The person-oriented source names scanned for in `parse_command`. -/
def personSourceNames : List String := ["linkedin", "twitter", "github"]

/-- The keys of `MCPParser.sources_map`. -/
def sources_map_keys : List String := ["linkedin", "twitter", "github", "web", "company"]

/-- The tail of `parse_command` shared by the non-URL, non-company cases:
person-name extraction with the `"Unknown Person"` fallback, and source
selection with the all-three default. -/
def MCPParser.personFallback (command : String) : Parsed :=
  let name :=
    match reSearchGroup namePre nameBody RE.eps command with
    | some n => n
    | none => "Unknown Person"
  let sources := personSourceNames.filter (fun s => strContains (pyLower command) (pyLower s))
  let sources := if sources.isEmpty then personSourceNames else sources
  .person name sources

/-- The `MCPParser.parse_command`. -/
def MCPParser.parse_command (command : String) : Parsed :=
  let urls := MCPParser._extract_urls command
  if !urls.isEmpty then .url urls ["web"]
  else if company_keywords.any (fun k => strContains (pyLower command) k) then
    match MCPParser._extract_company command with
    | some company => .company company ["company"]
    | none => MCPParser.personFallback command
  else MCPParser.personFallback command

/-! ## `IntelligenceAgent` -/

/-- Dispatch through `MCPParser.sources_map` for the person-research loop. -/
def sources_map_fetch (urlopen : String → Except String String)
    (pySet : List String → List String) (source_name subject : String) : String :=
  if source_name = "linkedin" then LinkedInPlugin.fetch_data subject
  else if source_name = "twitter" then TwitterPlugin.fetch_data subject
  else if source_name = "github" then GitHubPlugin.fetch_data subject
  else if source_name = "web" then WebScraperPlugin.fetch_data urlopen pySet subject
  else CompanyPlugin.fetch_data subject

/-- The body of the `try` block of `gather_intelligence`: parse, fetch from
the selected plugins, label, concatenate, summarize.  Every stage of the
mock pipeline is total, so the body always returns `Except.ok`; an
`Except.error` value models an uncaught exception escaping the body. -/
def IntelligenceAgent.gatherBody (urlopen : String → Except String String)
    (pySet : List String → List String) (command output_format : String) :
    Except String String :=
  let parsed := MCPParser.parse_command command
  let gt : List String × String :=
    match parsed with
    | .url urls _ =>
      (urls.map (fun url =>
         "URL " ++ url ++ ":\n" ++ WebScraperPlugin.fetch_data urlopen pySet url),
       "URLs: " ++ String.intercalate ", " urls)
    | .company company _ =>
      (["COMPANY RESEARCH:\n" ++ CompanyPlugin.fetch_data company],
       "Company: " ++ company)
    | .person name sources =>
      (sources.filterMap (fun source_name =>
         if source_name ∈ sources_map_keys then
           some (pyUpper source_name ++ ": " ++ sources_map_fetch urlopen pySet source_name name)
         else none),
       "Person: " ++ name)
  let combined_data := String.intercalate "\n" gt.1
  .ok (MockAISummarizer.summarize pySet (gt.2 ++ "\n\n" ++ combined_data) output_format)

/-- The `try/except Exception` wrapper of `gather_intelligence`: a normal
result is returned as is, an uncaught failure `e` is rendered as the error
string `"Error gathering intelligence: " ++ e`. -/
def tryWrap (body : Except String String) : String :=
  match body with
  | .ok s => s
  | .error e => "Error gathering intelligence: " ++ e

/-- The `IntelligenceAgent.gather_intelligence(command, output_format)`. -/
def IntelligenceAgent.gather_intelligence (urlopen : String → Except String String)
    (pySet : List String → List String) (command output_format : String) : String :=
  tryWrap (IntelligenceAgent.gatherBody urlopen pySet command output_format)

/-- The output-format resolution of `main`: `--json` wins over
`--markdown`, default `text`. -/
def main_output_format (jsonFlag markdownFlag : Bool) : String :=
  if jsonFlag then "json" else if markdownFlag then "markdown" else "text"

/-- A closed `urlopen` oracle for concrete evaluations: every request fails
(the person and company pipelines never consult it). -/
def urlopenNone : String → Except String String := fun _ => .error "offline"

/-! ## Shared data for the concrete scenarios -/

/-- The labeled text handed to the summarizer in the person flow for the
command `Tell me about John Doe` (target line plus the three source blocks
in canonical order). -/
def johnDoeData : String :=
  "Person: John Doe\n\n" ++
    "LINKEDIN: " ++ LinkedInPlugin.fetch_data "John Doe" ++ "\n" ++
    "TWITTER: " ++ TwitterPlugin.fetch_data "John Doe" ++ "\n" ++
    "GITHUB: " ++ GitHubPlugin.fetch_data "John Doe"

/-- The labeled text handed to the summarizer in the company flow for the
command `employees from TechCorp Inc` (whose extracted company name is
`Inc`). -/
def companyRunData : String :=
  "Company: Inc\n\nCOMPANY RESEARCH:\n" ++ CompanyPlugin.fetch_data "Inc"

/-! ## Helper lemmas -/

/-- Membership is preserved by first-occurrence deduplication. -/
theorem insertionDedup_mem (l : List String) (a : String) :
    a ∈ insertionDedup l ↔ a ∈ l := by
  induction l with
  | nil => simp [insertionDedup]
  | cons x xs ih =>
    simp only [insertionDedup, List.mem_cons, List.mem_filter, ih,
      decide_eq_true_eq]
    by_cases h : a = x
    · simp [h]
    · simp [h]

/-- First-occurrence deduplication produces a duplicate-free list. -/
theorem insertionDedup_nodup (l : List String) : (insertionDedup l).Nodup := by
  induction l with
  | nil => simp [insertionDedup]
  | cons x xs ih =>
    simp only [insertionDedup, List.nodup_cons]
    refine ⟨fun hmem => ?_, ih.filter _⟩
    have := (List.mem_filter.mp hmem).2
    simp at this

/-- Admissibility of `insertionDedup` as a model of `list(set(...))`. -/
theorem insertionDedup_ok : PySetOK insertionDedup :=
  fun xs => ⟨insertionDedup_nodup xs, fun a => insertionDedup_mem xs a⟩

/-- Admissibility of `revDedup` as a model of `list(set(...))`. -/
theorem revDedup_ok : PySetOK revDedup := by
  intro xs
  constructor
  · simpa [revDedup, List.nodup_reverse] using insertionDedup_nodup xs
  · intro a
    simp [revDedup, List.mem_reverse, insertionDedup_mem]

/-- A duplicate-free list whose members are exactly `a` and `b` is `[a, b]`
or `[b, a]`. -/
theorem two_mem_nodup (l : List String) (a b : String) (hab : a ≠ b)
    (hnd : l.Nodup) (hm : ∀ x, x ∈ l ↔ (x = a ∨ x = b)) :
    l = [a, b] ∨ l = [b, a] := by
  cases l with
  | nil => exact absurd ((hm a).mpr (Or.inl rfl)) (by simp)
  | cons x t =>
    cases t with
    | nil =>
      have ha : a = x := by simpa using (hm a).mpr (Or.inl rfl)
      have hb : b = x := by simpa using (hm b).mpr (Or.inr rfl)
      exact absurd (ha.trans hb.symm) hab
    | cons y u =>
      have hx : x = a ∨ x = b := (hm x).mp (by simp)
      have hy : y = a ∨ y = b := (hm y).mp (by simp)
      have hxy : x ≠ y := by
        intro h
        subst h
        simp [List.nodup_cons] at hnd
      have hu : u = [] := by
        cases u with
        | nil => rfl
        | cons z v =>
          have hz : z = a ∨ z = b := (hm z).mp (by simp)
          simp only [List.nodup_cons, List.mem_cons] at hnd
          rcases hx with rfl | rfl <;> rcases hy with rfl | rfl <;>
            rcases hz with rfl | rfl <;> simp_all
      subst hu
      rcases hx with rfl | rfl <;> rcases hy with rfl | rfl
      · exact absurd rfl hxy
      · exact Or.inl rfl
      · exact Or.inr rfl
      · exact absurd rfl hxy

/-- For distinct `a`, `b`, an admissible `list(set(...))` applied to `[a, b]`
returns `[a, b]` or `[b, a]`. -/
theorem pySet_pair (f : List String → List String) (hf : PySetOK f)
    (a b : String) (hab : a ≠ b) : f [a, b] = [a, b] ∨ f [a, b] = [b, a] := by
  refine two_mem_nodup _ a b hab (hf [a, b]).1 (fun x => ?_)
  rw [(hf [a, b]).2 x]
  simp

/-- A `filterMap` whose guard holds on every element is a `map`. -/
theorem filterMap_guard_eq_map (keys : List String) (g : String → String) :
    ∀ ss : List String, (∀ s ∈ ss, s ∈ keys) →
      (ss.filterMap fun s => if s ∈ keys then some (g s) else none) = ss.map g := by
  intro ss
  induction ss with
  | nil => intro _; rfl
  | cons x t ih =>
    intro h
    rw [List.filterMap_cons, if_pos (h x (by simp)), List.map_cons,
      ih (fun s hs => h s (by simp [hs]))]

/-- Projection out of a `JVal` string. -/
def jstrOf : JVal → Option String
  | .jstr s => some s
  | _ => none

/-- Reading back a list of JSON strings. -/
theorem filterMap_jstrOf (l : List String) :
    (l.map JVal.jstr).filterMap jstrOf = l := by
  induction l with
  | nil => rfl
  | cons x t ih => simp [jstrOf, ih]

/-- Composed form of the same fact, as produced by `List.filterMap_map`. -/
theorem filterMap_jstrOf_comp (l : List String) :
    List.filterMap (jstrOf ∘ JVal.jstr) l = l := by
  induction l with
  | nil => rfl
  | cons x t ih =>
    rw [List.filterMap_cons]
    simp only [Function.comp_apply]
    simp [jstrOf, ih]

/-- The fields of a JSON object (empty for non-objects). -/
def jvalFields : JVal → List (String × JVal)
  | .jobj fs => fs
  | _ => []

/-- The key list of a JSON object. -/
def jvalKeys (v : JVal) : List String := (jvalFields v).map Prod.fst

/-- First-match association lookup among JSON object fields. -/
def jfLookup : List (String × JVal) → String → Option JVal
  | [], _ => none
  | (k1, v) :: rest, k => if k1 = k then some v else jfLookup rest k

/-- The `contact_info.emails` array of a summary JSON value. -/
def jsonEmailsOf (v : JVal) : List String :=
  match jfLookup (jvalFields v) "contact_info" with
  | some ci =>
    match jfLookup (jvalFields ci) "emails" with
    | some (.jarr xs) => xs.filterMap jstrOf
    | some _ => []
    | none => []
  | none => []

set_option maxRecDepth 1000000

/-! ## Claim theorems -/

/-- C1: for every command string and output format, `gather_intelligence` is
the `try/except` wrapper `tryWrap` applied to the pipeline body, hence it
always returns a string to its caller; and whenever the body fails with an
uncaught exception `e`, the wrapper returns exactly
`"Error gathering intelligence: " ++ e`. -/
theorem claim1_gather_total_error_prefixed
    (urlopen : String → Except String String) (pySet : List String → List String)
    (command output_format : String) (body : Except String String) (e : String)
    (hfail : body = Except.error e) :
    IntelligenceAgent.gather_intelligence urlopen pySet command output_format
      = tryWrap (IntelligenceAgent.gatherBody urlopen pySet command output_format)
    ∧ (∃ s : String,
        IntelligenceAgent.gather_intelligence urlopen pySet command output_format = s)
    ∧ tryWrap body = "Error gathering intelligence: " ++ e := by
  refine ⟨rfl, ⟨_, rfl⟩, ?_⟩
  subst hfail
  rfl

/-- Witness for C1 at a concrete command, format and failing body. -/
theorem claim1_gather_total_error_prefixed_witness :
    IntelligenceAgent.gather_intelligence urlopenNone insertionDedup "hi" "text"
      = tryWrap (IntelligenceAgent.gatherBody urlopenNone insertionDedup "hi" "text")
    ∧ (∃ s : String,
        IntelligenceAgent.gather_intelligence urlopenNone insertionDedup "hi" "text" = s)
    ∧ tryWrap (Except.error "boom") = "Error gathering intelligence: boom" :=
  claim1_gather_total_error_prefixed urlopenNone insertionDedup "hi" "text"
    (Except.error "boom") "boom" rfl

/-- C4: every command with at least one URL-pattern match is classified as a
URL intent carrying the full ordered match list (duplicates preserved, since
`_extract_urls` is the `findall` scan), whatever other keywords the command
contains. -/
theorem claim4_url_intent_precedence (command : String)
    (h : MCPParser._extract_urls command ≠ []) :
    MCPParser.parse_command command
      = Parsed.url (MCPParser._extract_urls command) ["web"] := by
  have hne : (MCPParser._extract_urls command).isEmpty = false := by
    cases hu : MCPParser._extract_urls command with
    | nil => exact absurd hu h
    | cons a t => rfl
  simp [MCPParser.parse_command, hne]

/-- Witness for C4: a command that also contains organizational keywords and
a person name still classifies as a URL intent. -/
theorem claim4_url_intent_precedence_witness :
    MCPParser.parse_command "employees about John Doe from TechCorp Inc https://example.com/contact team"
      = Parsed.url
          (MCPParser._extract_urls "employees about John Doe from TechCorp Inc https://example.com/contact team")
          ["web"] :=
  claim4_url_intent_precedence _ (by decide)

/-- C7: for a command with no URL match, a keyword hit with a successful
company extraction yields that company intent; a keyword hit without an
extractable name falls through to the person fallback, as does the absence
of any keyword.  The fallback is always a person intent whose name is the
`about First Last` capture when present and the literal `Unknown Person`
otherwise, and whose source list defaults to all three person-oriented
providers when the filter selects none; so classification always produces
an intent. -/
theorem claim7_keyword_fallthrough_person_defaults (command : String)
    (hnourl : MCPParser._extract_urls command = []) :
    (∀ name : String,
        company_keywords.any (fun k => strContains (pyLower command) k) = true →
        MCPParser._extract_company command = some name →
        MCPParser.parse_command command = Parsed.company name ["company"])
    ∧ (company_keywords.any (fun k => strContains (pyLower command) k) = true →
        MCPParser._extract_company command = none →
        MCPParser.parse_command command = MCPParser.personFallback command)
    ∧ (company_keywords.any (fun k => strContains (pyLower command) k) = false →
        MCPParser.parse_command command = MCPParser.personFallback command)
    ∧ MCPParser.personFallback command
        = Parsed.person
            ((reSearchGroup namePre nameBody RE.eps command).getD "Unknown Person")
            (if (personSourceNames.filter fun s =>
                   strContains (pyLower command) (pyLower s)).isEmpty
             then personSourceNames
             else personSourceNames.filter fun s =>
                   strContains (pyLower command) (pyLower s))
    ∧ ((∃ nm ss, MCPParser.parse_command command = Parsed.person nm ss)
        ∨ (∃ nm ss, MCPParser.parse_command command = Parsed.company nm ss)) := by
  have hE : (MCPParser._extract_urls command).isEmpty = true := by rw [hnourl]; rfl
  have hfall : MCPParser.personFallback command
      = Parsed.person
          ((reSearchGroup namePre nameBody RE.eps command).getD "Unknown Person")
          (if (personSourceNames.filter fun s =>
                 strContains (pyLower command) (pyLower s)).isEmpty
           then personSourceNames
           else personSourceNames.filter fun s =>
                 strContains (pyLower command) (pyLower s)) := by
    simp only [MCPParser.personFallback]
    cases reSearchGroup namePre nameBody RE.eps command <;> rfl
  refine ⟨?_, ?_, ?_, hfall, ?_⟩
  · intro name hk hex
    simp [MCPParser.parse_command, hE, hk, hex]
  · intro hk hex
    simp [MCPParser.parse_command, hE, hk, hex]
  · intro hk
    simp [MCPParser.parse_command, hE, hk]
  · cases hk : company_keywords.any (fun k => strContains (pyLower command) k) with
    | false =>
      refine Or.inl
        ⟨(reSearchGroup namePre nameBody RE.eps command).getD "Unknown Person",
         (if (personSourceNames.filter fun s =>
                strContains (pyLower command) (pyLower s)).isEmpty
          then personSourceNames
          else personSourceNames.filter fun s =>
                strContains (pyLower command) (pyLower s)), ?_⟩
      rw [show MCPParser.parse_command command = MCPParser.personFallback command by
            simp [MCPParser.parse_command, hE, hk], hfall]
    | true =>
      cases hex : MCPParser._extract_company command with
      | none =>
        refine Or.inl
          ⟨(reSearchGroup namePre nameBody RE.eps command).getD "Unknown Person",
           (if (personSourceNames.filter fun s =>
                  strContains (pyLower command) (pyLower s)).isEmpty
            then personSourceNames
            else personSourceNames.filter fun s =>
                  strContains (pyLower command) (pyLower s)), ?_⟩
        rw [show MCPParser.parse_command command = MCPParser.personFallback command by
              simp [MCPParser.parse_command, hE, hk, hex], hfall]
      | some nm =>
        refine Or.inr ⟨nm, ["company"], ?_⟩
        simp [MCPParser.parse_command, hE, hk, hex]

/-- Witness for C7: a keyword command whose company extraction fails falls
through to the person fallback. -/
theorem claim7_keyword_fallthrough_person_defaults_witness :
    MCPParser.parse_command "employees at x" = MCPParser.personFallback "employees at x" :=
  (claim7_keyword_fallthrough_person_defaults "employees at x" (by decide)).2.1
    (by decide) (by decide)

/-- C10: whenever classification yields a person intent, its source list is
a non-empty subsequence of the canonical list `[linkedin, twitter, github]`
in that order, never contains `web` or `company`, and the person branch of
`gatherBody` produces one labeled block per selected source, in exactly that
canonical source-list order. -/
theorem claim10_person_sources_canonical (command n : String) (ss : List String)
    (h : MCPParser.parse_command command = Parsed.person n ss) :
    ss ≠ [] ∧ ss.Sublist personSourceNames ∧ "web" ∉ ss ∧ "company" ∉ ss
    ∧ ∀ (urlopen : String → Except String String)
        (pySet : List String → List String) (fmt : String),
        IntelligenceAgent.gatherBody urlopen pySet command fmt
          = Except.ok (MockAISummarizer.summarize pySet
              ("Person: " ++ n ++ "\n\n" ++ String.intercalate "\n"
                (ss.map fun s => pyUpper s ++ ": " ++ sources_map_fetch urlopen pySet s n))
              fmt) := by
  have h0 := h
  have hss : ss = (if (personSourceNames.filter fun s =>
        strContains (pyLower command) (pyLower s)).isEmpty
      then personSourceNames
      else personSourceNames.filter fun s =>
        strContains (pyLower command) (pyLower s)) := by
    simp only [MCPParser.parse_command] at h
    cases hu : (MCPParser._extract_urls command).isEmpty with
    | false => rw [hu] at h; simp at h
    | true =>
      rw [hu] at h
      simp only [Bool.not_true, Bool.false_eq_true, if_false, reduceIte] at h
      have hfall : ∀ hp : MCPParser.personFallback command = Parsed.person n ss,
          ss = (if (personSourceNames.filter fun s =>
              strContains (pyLower command) (pyLower s)).isEmpty
            then personSourceNames
            else personSourceNames.filter fun s =>
              strContains (pyLower command) (pyLower s)) := by
        intro hp
        simp only [MCPParser.personFallback, Parsed.person.injEq] at hp
        exact hp.2.symm
      cases hk : company_keywords.any (fun k => strContains (pyLower command) k) with
      | false => rw [hk] at h; simp only [Bool.false_eq_true, if_false, reduceIte] at h; exact hfall h
      | true =>
        rw [hk] at h
        simp only [if_true, reduceIte] at h
        cases hex : MCPParser._extract_company command with
        | some nm => rw [hex] at h; simp at h
        | none => rw [hex] at h; exact hfall h
  have hsub : ss.Sublist personSourceNames := by
    rw [hss]
    cases hf : (personSourceNames.filter fun s =>
        strContains (pyLower command) (pyLower s)).isEmpty with
    | true => simp only [if_true, reduceIte]; exact List.Sublist.refl _
    | false => simp only [Bool.false_eq_true, if_false, reduceIte]; exact List.filter_sublist _
  have hne : ss ≠ [] := by
    rw [hss]
    cases hf : (personSourceNames.filter fun s =>
        strContains (pyLower command) (pyLower s)).isEmpty with
    | true => simp only [if_true, reduceIte]; decide
    | false =>
      simp only [Bool.false_eq_true, if_false, reduceIte]
      intro hnil
      rw [hnil] at hf
      simp at hf
  have hmemkeys : ∀ s ∈ ss, s ∈ sources_map_keys := by
    intro s hs
    have := hsub.subset hs
    simp only [personSourceNames, List.mem_cons, List.not_mem_nil, or_false] at this
    rcases this with rfl | rfl | rfl <;> simp [sources_map_keys]
  refine ⟨hne, hsub, ?_, ?_, ?_⟩
  · intro hmem
    have := hsub.subset hmem
    simp [personSourceNames] at this
  · intro hmem
    have := hsub.subset hmem
    simp [personSourceNames] at this
  · intro urlopen pySet fmt
    simp only [IntelligenceAgent.gatherBody, h0]
    rw [filterMap_guard_eq_map sources_map_keys
      (fun s => pyUpper s ++ ": " ++ sources_map_fetch urlopen pySet s n) ss hmemkeys]

/-- Witness for C10 at the John Doe command (default sources). -/
theorem claim10_person_sources_canonical_witness :
    (["linkedin", "twitter", "github"] : List String) ≠ []
    ∧ "web" ∉ (["linkedin", "twitter", "github"] : List String) := by
  have t := claim10_person_sources_canonical "Tell me about John Doe" "John Doe"
    ["linkedin", "twitter", "github"] (by decide)
  exact ⟨t.1, t.2.2.1⟩

/-- C2: `run("Tell me about John Doe", "json")` classifies the command as a
person intent named `John Doe` with the default source set
`[linkedin, twitter, github]`, and the JSON output is the rendering of a
summary object whose `contact_info.emails` array contains both
`john.doe@techcorp.com` and `johndoe@gmail.com` — for every admissible
`list(set(...))` iteration order. -/
theorem claim2_john_doe_json_scenario
    (urlopen : String → Except String String) (pySet : List String → List String)
    (h : PySetOK pySet) :
    MCPParser.parse_command "Tell me about John Doe"
      = Parsed.person "John Doe" ["linkedin", "twitter", "github"]
    ∧ IntelligenceAgent.gather_intelligence urlopen pySet "Tell me about John Doe" "json"
        = pyDumps (summarizeJson pySet johnDoeData)
    ∧ "john.doe@techcorp.com" ∈ jsonEmailsOf (summarizeJson pySet johnDoeData)
    ∧ "johndoe@gmail.com" ∈ jsonEmailsOf (summarizeJson pySet johnDoeData) := by
  have hparse : MCPParser.parse_command "Tell me about John Doe"
      = Parsed.person "John Doe" ["linkedin", "twitter", "github"] := by decide
  have hemails : reFindAll emailRE johnDoeData
      = ["john.doe@techcorp.com", "johndoe@gmail.com"] := by decide
  have hgb : IntelligenceAgent.gatherBody urlopen pySet "Tell me about John Doe" "json"
      = Except.ok (MockAISummarizer.summarize pySet johnDoeData "json") := by
    simp only [IntelligenceAgent.gatherBody, hparse]
    refine congrArg (fun D => Except.ok (MockAISummarizer.summarize pySet D "json")) ?_
    simp only [sources_map_keys, sources_map_fetch, List.filterMap_cons, List.filterMap_nil]
    simp
    decide
  have hjs : jsonEmailsOf (summarizeJson pySet johnDoeData)
      = pySet ["john.doe@techcorp.com", "johndoe@gmail.com"] := by
    simp only [jsonEmailsOf, summarizeJson, jsonContactInfo,
      MockAISummarizer.contact_info, hemails, jvalFields, jfLookup]
    simp [jfLookup, filterMap_jstrOf, filterMap_jstrOf_comp]
  refine ⟨hparse, ?_, ?_, ?_⟩
  · rw [IntelligenceAgent.gather_intelligence, hgb]
    simp only [tryWrap]
    simp only [MockAISummarizer.summarize]
    simp
  · rw [hjs]
    exact ((h _).2 _).mpr (by simp)
  · rw [hjs]
    exact ((h _).2 _).mpr (by simp)

/-- Witness for C2 with the first-occurrence deduplication order. -/
theorem claim2_john_doe_json_scenario_witness :
    MCPParser.parse_command "Tell me about John Doe"
      = Parsed.person "John Doe" ["linkedin", "twitter", "github"]
    ∧ IntelligenceAgent.gather_intelligence urlopenNone insertionDedup
        "Tell me about John Doe" "json"
        = pyDumps (summarizeJson insertionDedup johnDoeData)
    ∧ "john.doe@techcorp.com" ∈ jsonEmailsOf (summarizeJson insertionDedup johnDoeData)
    ∧ "johndoe@gmail.com" ∈ jsonEmailsOf (summarizeJson insertionDedup johnDoeData) :=
  claim2_john_doe_json_scenario urlopenNone insertionDedup insertionDedup_ok

/-- C3 (evidence for the code bug): on `employees from TechCorp Inc` the
first company template matches the literal `corp` inside `TechCorp` and its
group captures only `Inc`, so the pipeline researches company `Inc`: the
extracted emails are the three `*@inc.com` addresses (not
`*@techcorpinc.com`), and the phone extraction finds nothing at all — the
phone pattern demands 3+3+4 digits while the mock numbers `+1-555-0101/2/3`
only carry 3+4 after the `+1` — so the text output has no phone line, in
contradiction with the module docstring of `leads.py`, which shows a
`📱 Phones:` line for this flow. -/
theorem claim3_company_scenario_actual_output :
    MCPParser._extract_company "employees from TechCorp Inc" = some "Inc"
    ∧ MCPParser.parse_command "employees from TechCorp Inc"
        = Parsed.company "Inc" ["company"]
    ∧ reFindAll emailRE companyRunData
        = ["j.smith@inc.com", "sarah.j@inc.com", "m.chen@inc.com"]
    ∧ reFindAll phoneRE companyRunData = []
    ∧ IntelligenceAgent.gather_intelligence urlopenNone insertionDedup
        "employees from TechCorp Inc" "text"
        = summaryText ++
            "\n\n📞 CONTACT INFO:\n📧 Emails: j.smith@inc.com, sarah.j@inc.com, m.chen@inc.com" :=
  ⟨by decide, by decide, by decide, by decide, by decide⟩

/-- C5 (counterexample): two admissible `list(set(...))` iteration orders —
two possible runs of the same Python program on the same input — render the
same `(labeledText, format)` pair differently, and under the reversed order
the emails do not appear in first-occurrence order (`d@e.ff` is rendered
before `a@b.cc` although `a@b.cc` occurs first in the input). -/
theorem claim5_set_order_counterexample :
    PySetOK insertionDedup ∧ PySetOK revDedup
    ∧ reFindAll emailRE "a@b.cc d@e.ff" = ["a@b.cc", "d@e.ff"]
    ∧ MockAISummarizer.summarize revDedup "a@b.cc d@e.ff" "text"
        = summaryText ++ "\n\n📞 CONTACT INFO:\n📧 Emails: d@e.ff, a@b.cc"
    ∧ MockAISummarizer.summarize insertionDedup "a@b.cc d@e.ff" "text"
        ≠ MockAISummarizer.summarize revDedup "a@b.cc d@e.ff" "text" :=
  ⟨insertionDedup_ok, revDedup_ok, by decide, by decide, by decide⟩

/-- C5 (amended): `summarize` is a pure function of the input data, the
format and the set-iteration order of the two extracted lists — two calls
agreeing on those produce byte-identical output — and the rendered email and
phone lists are duplicate-free with exactly the extracted occurrences as
members; their order is the set-iteration order, not necessarily the
first-occurrence order. -/
theorem claim5_amended_deterministic_up_to_set_order
    (f g : List String → List String) (hf : PySetOK f)
    (data fmt : String)
    (he : f (reFindAll emailRE data) = g (reFindAll emailRE data))
    (hp : f (reFindAll phoneRE data) = g (reFindAll phoneRE data)) :
    MockAISummarizer.summarize f data fmt = MockAISummarizer.summarize g data fmt
    ∧ (f (reFindAll emailRE data)).Nodup
    ∧ (∀ e, e ∈ f (reFindAll emailRE data) ↔ e ∈ reFindAll emailRE data)
    ∧ (f (reFindAll phoneRE data)).Nodup
    ∧ (∀ p1, p1 ∈ f (reFindAll phoneRE data) ↔ p1 ∈ reFindAll phoneRE data) := by
  refine ⟨?_, (hf _).1, (hf _).2, (hf _).1, (hf _).2⟩
  simp only [MockAISummarizer.summarize, MockAISummarizer.contact_info,
    summarizeJson, jsonContactInfo, he, hp]

/-- Witness for the amended C5 with both orders equal to first-occurrence
deduplication. -/
theorem claim5_amended_deterministic_up_to_set_order_witness :
    MockAISummarizer.summarize insertionDedup "a@b.cc" "text"
      = MockAISummarizer.summarize insertionDedup "a@b.cc" "text"
    ∧ (insertionDedup (reFindAll emailRE "a@b.cc")).Nodup
    ∧ (∀ e, e ∈ insertionDedup (reFindAll emailRE "a@b.cc")
          ↔ e ∈ reFindAll emailRE "a@b.cc")
    ∧ (insertionDedup (reFindAll phoneRE "a@b.cc")).Nodup
    ∧ (∀ p1, p1 ∈ insertionDedup (reFindAll phoneRE "a@b.cc")
          ↔ p1 ∈ reFindAll phoneRE "a@b.cc") :=
  claim5_amended_deterministic_up_to_set_order insertionDedup insertionDedup
    insertionDedup_ok "a@b.cc" "text" rfl rfl

/-- The labeled text handed to the summarizer in the person flow for the
command `hi` (no name extracted, hence the `Unknown Person` fallback with
the default source set). -/
def unknownPersonData : String :=
  "Person: Unknown Person\n\n" ++
    "LINKEDIN: " ++ LinkedInPlugin.fetch_data "Unknown Person" ++ "\n" ++
    "TWITTER: " ++ TwitterPlugin.fetch_data "Unknown Person" ++ "\n" ++
    "GITHUB: " ++ GitHubPlugin.fetch_data "Unknown Person"

/-- C6 (counterexample): the malformed format selector `xml` is not rejected
anywhere: `gather_intelligence` forwards it to `summarize`, which silently
renders the text format instead of signalling an invalid argument. -/
theorem claim6_bogus_format_reaches_summarizer :
    IntelligenceAgent.gather_intelligence urlopenNone insertionDedup "hi" "xml"
      = MockAISummarizer.summarize insertionDedup unknownPersonData "xml"
    ∧ MockAISummarizer.summarize insertionDedup unknownPersonData "xml"
      = summaryText ++
          "\n\n📞 CONTACT INFO:\n📧 Emails: unknown.person@techcorp.com, unknownperson@gmail.com" :=
  ⟨by decide, by decide⟩

/-- C6 (amended): the CLI boundary (`main`) can only produce the three valid
selectors, but the `run` boundary itself validates nothing: every format
other than `json` and `markdown` is passed to `summarize` and rendered as
the text format. -/
theorem claim6_amended_no_boundary_rejection
    (j m : Bool) (pySet : List String → List String) (data fmt : String)
    (h1 : fmt ≠ "json") (h2 : fmt ≠ "markdown") :
    (main_output_format j m = "json" ∨ main_output_format j m = "markdown"
      ∨ main_output_format j m = "text")
    ∧ MockAISummarizer.summarize pySet data fmt
        = MockAISummarizer.summarize pySet data "text" := by
  constructor
  · cases j <;> cases m <;> simp [main_output_format]
  · simp only [MockAISummarizer.summarize]
    rw [if_neg h1, if_neg h2, if_neg (by decide : ¬("text" : String) = "json"),
      if_neg (by decide : ¬("text" : String) = "markdown")]

/-- Witness for the amended C6 at the malformed selector `xml`. -/
theorem claim6_amended_no_boundary_rejection_witness :
    (main_output_format false false = "json"
      ∨ main_output_format false false = "markdown"
      ∨ main_output_format false false = "text")
    ∧ MockAISummarizer.summarize insertionDedup "x" "xml"
        = MockAISummarizer.summarize insertionDedup "x" "text" :=
  claim6_amended_no_boundary_rejection false false insertionDedup "x" "xml"
    (by decide) (by decide)

/-- C8 (counterexample): when no emails or phones are extracted, the JSON
output still carries the `contact_info` key bound to the empty object
`\x7b\x7d` — it is neither omitted nor empty-object-free. -/
theorem claim8_empty_contact_info_counterexample :
    MockAISummarizer.summarize insertionDedup "hello" "json"
      = "\x7b\n  \"summary\": \"Professional Intelligence Summary: Comprehensive profile with contact details extracted from multiple sources.\",\n  \"contact_info\": \x7b\x7d,\n  \"confidence\": 0.8,\n  \"sources\": [\n    \"linkedin\",\n    \"twitter\",\n    \"github\",\n    \"web\",\n    \"company\"\n  ]\n\x7d"
    ∧ strContains (MockAISummarizer.summarize insertionDedup "hello" "json")
        "\"contact_info\": \x7b\x7d" = true :=
  ⟨by decide, by decide⟩

/-- C8 (amended): the `json` output renders exactly the object with
top-level keys `summary`, `contact_info`, `confidence`, `sources`;
inside `contact_info` the `emails` (resp. `phones`) key is present exactly
when the corresponding extraction is non-empty; and when both extractions
are empty `contact_info` is the empty object (it is never omitted). -/
theorem claim8_amended_json_shape
    (pySet : List String → List String) (data : String) :
    MockAISummarizer.summarize pySet data "json" = pyDumps (summarizeJson pySet data)
    ∧ jvalKeys (summarizeJson pySet data)
        = ["summary", "contact_info", "confidence", "sources"]
    ∧ ("emails" ∈ jvalKeys (jsonContactInfo pySet data) ↔ reFindAll emailRE data ≠ [])
    ∧ ("phones" ∈ jvalKeys (jsonContactInfo pySet data) ↔ reFindAll phoneRE data ≠ [])
    ∧ (jsonContactInfo pySet data = JVal.jobj []
        ↔ (reFindAll emailRE data = [] ∧ reFindAll phoneRE data = [])) := by
  refine ⟨?_, rfl, ?_, ?_, ?_⟩
  · simp only [MockAISummarizer.summarize]
    simp
  · cases hE : reFindAll emailRE data <;> cases hP : reFindAll phoneRE data <;>
      simp [jsonContactInfo, MockAISummarizer.contact_info, jvalKeys, jvalFields, hE, hP]
  · cases hE : reFindAll emailRE data <;> cases hP : reFindAll phoneRE data <;>
      simp [jsonContactInfo, MockAISummarizer.contact_info, jvalKeys, jvalFields, hE, hP]
  · cases hE : reFindAll emailRE data <;> cases hP : reFindAll phoneRE data <;>
      simp [jsonContactInfo, MockAISummarizer.contact_info, jvalKeys, jvalFields, hE, hP]

/-- C9 (counterexample): extraction is not idempotent over the rendered
contact block.  From the text `a@b.cc|9` the email pattern extracts
`a@b.cc|` (the class `[A-Z|a-z]` contains the bar and `\b` holds between
`|` and `9`); re-running the extraction over the rendered comma-joined email
list yields `a@b.cc` instead — a different set. -/
theorem claim9_idempotence_counterexample :
    reFindAll emailRE "a@b.cc|9" = ["a@b.cc|"]
    ∧ MockAISummarizer.summarize insertionDedup "a@b.cc|9" "text"
        = summaryText ++ "\n\n📞 CONTACT INFO:\n📧 Emails: a@b.cc|"
    ∧ reFindAll emailRE
        (String.intercalate ", " (insertionDedup (reFindAll emailRE "a@b.cc|9")))
        = ["a@b.cc"]
    ∧ (["a@b.cc"] : List String) ≠ ["a@b.cc|"] :=
  ⟨by decide, by decide, by decide, by decide⟩

/-- C9 (amended): idempotence does hold for the contact data the program
itself produces in the John Doe person flow: re-running the email extraction
over the rendered comma-joined email list returns exactly the originally
extracted email set (for every admissible set-iteration order), and the
phone extraction is empty both before and after. -/
theorem claim9_amended_mock_flow_idempotent
    (pySet : List String → List String) (h : PySetOK pySet) :
    (∀ e : String,
        e ∈ reFindAll emailRE
              (String.intercalate ", " (pySet (reFindAll emailRE johnDoeData)))
          ↔ e ∈ reFindAll emailRE johnDoeData)
    ∧ reFindAll phoneRE johnDoeData = []
    ∧ reFindAll phoneRE
        (String.intercalate ", " (pySet (reFindAll emailRE johnDoeData))) = [] := by
  have hemails : reFindAll emailRE johnDoeData
      = ["john.doe@techcorp.com", "johndoe@gmail.com"] := by decide
  have hpair := pySet_pair pySet h "john.doe@techcorp.com" "johndoe@gmail.com" (by decide)
  rw [hemails]
  refine ⟨?_, by decide, ?_⟩
  · intro e
    rcases hpair with hc | hc <;> rw [hc]
    · rw [show reFindAll emailRE
          (String.intercalate ", " ["john.doe@techcorp.com", "johndoe@gmail.com"])
          = ["john.doe@techcorp.com", "johndoe@gmail.com"] from by decide]
    · rw [show reFindAll emailRE
          (String.intercalate ", " ["johndoe@gmail.com", "john.doe@techcorp.com"])
          = ["johndoe@gmail.com", "john.doe@techcorp.com"] from by decide]
      simp only [List.mem_cons, List.not_mem_nil, or_false]
      tauto
  · rcases hpair with hc | hc <;> rw [hc] <;> decide

/-- Witness for the amended C9 with the first-occurrence deduplication
order. -/
theorem claim9_amended_mock_flow_idempotent_witness :
    (∀ e : String,
        e ∈ reFindAll emailRE
              (String.intercalate ", " (insertionDedup (reFindAll emailRE johnDoeData)))
          ↔ e ∈ reFindAll emailRE johnDoeData)
    ∧ reFindAll phoneRE johnDoeData = []
    ∧ reFindAll phoneRE
        (String.intercalate ", "
          (insertionDedup (reFindAll emailRE johnDoeData))) = [] :=
  claim9_amended_mock_flow_idempotent insertionDedup insertionDedup_ok
